import Mathlib

/-!
Verification of the family-bill-tracker core: bill status derivation,
recurrence resolution, sorting/aggregation, autopay scheduling and calendar
projection, shallowly embedded from the TypeScript sources
(`src/unnamed/part_001` = the dashboard App, `src/unnamed/part_002` = the
store layer, `src/src/components/BillsCalendar.tsx` = the calendar grid).

Embedding conventions:
* ECMAScript `Date` values, as used by this program, are always local
  midnights ("time-of-day is never significant"); they are embedded as civil
  calendar dates `CalDate` (year / 1-based month / day).  `getTime()`
  comparisons between two such midnights order exactly as the civil dates
  do, so time comparison is embedded as lexicographic comparison of
  `(year, month, day)`.
* `new Date(y, m, d)` month/day overflow normalization (and the ECMAScript
  quirk mapping year arguments 0..99 to 1900..1999) is implemented by
  `jsMakeDate` below over the proleptic Gregorian calendar.
* JS numbers are embedded as rationals `ℚ` (`Number.isInteger x` becomes
  `x.den = 1`); currency amounts are exact rationals.
* `localeCompare` on names is embedded as the total lexicographic order on
  strings; the logic only uses it as an arbitrary total tiebreak order.
-/

/-- Leap years of the proleptic Gregorian calendar used by ECMAScript
`Date`. -/
def isLeapYear (y : Int) : Bool :=
  y % 4 = 0 ∧ (y % 100 ≠ 0 ∨ y % 400 = 0)

/-- Number of days of month `m` (1-based, assumed in 1..12) of year `y`,
as ECMAScript `new Date(y, m, 0).getDate()` reports it. -/
def daysInMonth (y m : Int) : Int :=
  if m = 1 ∨ m = 3 ∨ m = 5 ∨ m = 7 ∨ m = 8 ∨ m = 10 ∨ m = 12 then 31
  else if m = 4 ∨ m = 6 ∨ m = 9 ∨ m = 11 then 30
  else if isLeapYear y then 29 else 28

/-- A civil calendar date: the embedding of a midnight-normalized JS `Date`.
`month` is 1-based (January = 1); `getMonth()` is `month - 1`. -/
structure CalDate where
  year : Int
  month : Int
  day : Int
deriving DecidableEq, Repr

/-- Month preceding `(y, m)` (both 1-based). -/
def prevMonth (y m : Int) : Int × Int :=
  if m = 1 then (y - 1, 12) else (y, m - 1)

/-- Month following `(y, m)` (both 1-based). -/
def nextMonth (y m : Int) : Int × Int :=
  if m = 12 then (y + 1, 1) else (y, m + 1)

/-- Day-overflow normalization of `new Date`: starting from day `d` of month
`(y, m)`, carry whole months forward while `d` exceeds the month length.
The fuel is structural; each step consumes at least 28 days of `d`, so fuel
`d.toNat` always suffices for `d ≥ 1` (callers pass exactly that). -/
def rollForwardAux : Nat → Int → Int → Int → CalDate
  | 0, y, m, d => ⟨y, m, d⟩
  | fuel + 1, y, m, d =>
    if d > daysInMonth y m then
      let p := nextMonth y m
      rollForwardAux fuel p.1 p.2 (d - daysInMonth y m)
    else ⟨y, m, d⟩

/-- Day-underflow normalization of `new Date`: while `d < 1`, borrow from the
preceding month.  Each step adds at least 28 to `d`, so the fuel always
suffices. -/
def rollBackAux : Nat → Int → Int → Int → CalDate
  | 0, y, m, d => ⟨y, m, d⟩
  | fuel + 1, y, m, d =>
    if d < 1 then
      let p := prevMonth y m
      rollBackAux fuel p.1 p.2 (d + daysInMonth p.1 p.2)
    else ⟨y, m, d⟩

/-- The embedding of ECMAScript `new Date(y, m, d)` (m 0-based, any
integers): the two-digit-year quirk, month normalization by floored
division, then day carry/borrow. -/
def jsMakeDate (y m d : Int) : CalDate :=
  let y0 := if 0 ≤ y ∧ y ≤ 99 then y + 1900 else y
  let ym := y0 + Int.fdiv m 12
  let mn := Int.emod m 12 + 1
  if d < 1 then rollBackAux ((1 - d).toNat + 1) ym mn d
  else rollForwardAux d.toNat ym mn d

/-- `Date.prototype.getFullYear`. -/
def getFullYear (dt : CalDate) : Int := dt.year

/-- `Date.prototype.getMonth` (0-based). -/
def getMonth (dt : CalDate) : Int := dt.month - 1

/-- `Date.prototype.getDate`. -/
def getDate (dt : CalDate) : Int := dt.day

/-- Strict order on midnight dates: the embedding of
`startOfDay(a).getTime() < startOfDay(b).getTime()`. -/
def dateLtB (a b : CalDate) : Bool :=
  decide (a.year < b.year ∨ (a.year = b.year ∧
    (a.month < b.month ∨ (a.month = b.month ∧ a.day < b.day))))

/-- Decimal digits of a two-digit zero-padded number, as produced by
`String(n).padStart(2, "0")` for `0 ≤ n ≤ 99`. -/
def pad2 (n : Int) : String :=
  if n < 10 then "0" ++ toString n else toString n

/-- The template `` `${year}-${String(month).padStart(2, "0")}` `` used for
`YYYY-MM` period strings (`month` 1-based here). -/
def yyyymmString (year month : Int) : String :=
  toString year ++ "-" ++ pad2 month

/-- Numeric value of a list of decimal digit characters. -/
def digitsVal (l : List Char) : Int :=
  l.foldl (fun acc c => acc * 10 + (Int.ofNat c.toNat - 48)) 0

/-- The strict `/^\d{4}-\d{2}-\d{2}$/` pattern test plus
`split("-").map(Number)`: returns the three integer parts when the string
matches, `none` otherwise. -/
def splitDateParts (s : String) : Option (Int × Int × Int) :=
  match s.data with
  | [c1, c2, c3, c4, h1, c5, c6, h2, c7, c8] =>
    if ([c1, c2, c3, c4, c5, c6, c7, c8].all Char.isDigit
        ∧ h1 = '-' ∧ h2 = '-') then
      some (digitsVal [c1, c2, c3, c4], digitsVal [c5, c6], digitsVal [c7, c8])
    else none
  | _ => none

/-- `parseYYYYMMDD` (identical in `part_000`, `part_001` and
`BillsCalendar.tsx`): strict pattern test, re-derive a `Date` from the parts
and reject when the round trip disagrees.  The source's
`Number.isInteger` checks are vacuously true for digit-parsed parts. -/
def parseYYYYMMDD (s : String) : Option CalDate :=
  match splitDateParts s with
  | none => none
  | some (y, m, d) =>
    let dt := jsMakeDate y (m - 1) d
    if getFullYear dt ≠ y ∨ getMonth dt ≠ m - 1 ∨ getDate dt ≠ d then none
    else some dt


/-- The stored `status` field: `"unpaid" | "paid"` (`BillStatus` in
`part_002`). -/
inductive BillStatus where
  | unpaid
  | paid
deriving DecidableEq, Repr

/-- `BillRecurrence = "monthly" | null` is embedded as
`Option BillRecurrence`. -/
inductive BillRecurrence where
  | monthly
deriving DecidableEq, Repr

/-- `BillListItem` from `part_002`, with the `autopay` flag consumed by
`part_001` (the source only ever reads it as `bill.autopay === true`, so it
is a `Bool`).  `dayOfMonth : Option ℚ` keeps the JS `number | null` typing:
the consumers re-check `Number.isInteger` (`den = 1`) themselves. -/
structure BillListItem where
  id : String
  name : String
  amount : ℚ
  dueDate : Option String
  status : BillStatus
  recurrence : Option BillRecurrence
  dayOfMonth : Option ℚ
  paidForMonth : Option String
  autopay : Bool
deriving DecidableEq, Repr

/-- JS falsiness of an optional string (`!dueDate`): `null`, `undefined`
and `""` are falsy; this returns the string exactly when it is truthy. -/
def truthyStr (s : Option String) : Option String :=
  match s with
  | none => none
  | some s => if s = "" then none else some s

/-- The current `YYYY-MM` period derived from `now`
(``${nowYear}-${String(nowMonth + 1).padStart(2, "0")}``, `part_001:442`). -/
def currentYYYYMM (today : CalDate) : String :=
  yyyymmString today.year today.month

/-- The spec's `derive(bill, queryPeriod)` (`getDerivedStatus`,
`part_001:468`, with the query period as a parameter: the dashboard
instantiates it at the current period and the calendar grid at the viewed
period). -/
def deriveStatus (bill : BillListItem) (p : String) : BillStatus :=
  if bill.recurrence = some BillRecurrence.monthly then
    if bill.paidForMonth = some p then BillStatus.paid else BillStatus.unpaid
  else bill.status

/-- `getDerivedStatus` as the dashboard uses it: derived against the current
period. -/
def getDerivedStatus (today : CalDate) (bill : BillListItem) : BillStatus :=
  deriveStatus bill (currentYYYYMM today)

/-- `getRecurringDueDateInViewedMonth` (`BillsCalendar.tsx:63`): `null` for a
non-number / non-integer day-of-month, else the viewed month's date at the
day clamped into `[1, lastDay]`.  `month0` is 0-based as in the source. -/
def getRecurringDueDateInViewedMonth (year month0 : Int) (dayOfMonth : Option ℚ) :
    Option CalDate :=
  match dayOfMonth with
  | none => none
  | some q =>
    if q.den ≠ 1 then none
    else
      let lastDay := getDate (jsMakeDate year (month0 + 1) 0)
      let clamped := min (max q.num 1) lastDay
      some (jsMakeDate year month0 clamped)

/-- `getRecurringDueDateInCurrentMonth` (`part_001:489`): the same
resolution against `now`'s year/month. -/
def getRecurringDueDateInCurrentMonth (today : CalDate) (dayOfMonth : Option ℚ) :
    Option CalDate :=
  getRecurringDueDateInViewedMonth today.year (today.month - 1) dayOfMonth

/-- `parseOneTimeDueDate` (`part_001:476`) returns
`Number.POSITIVE_INFINITY` for a falsy or unparseable due date; the
time-or-infinity sort key is embedded as `Option CalDate` with `none` as
`+∞`. -/
def parseOneTimeDueDate (dueDate : Option String) : Option CalDate :=
  match truthyStr dueDate with
  | none => none
  | some s => parseYYYYMMDD s

/-- The due date resolved by `isOverdue` (`part_001:594`): recurring date in
the current month for monthly bills, parsed `dueDate` (guarded by
truthiness) for one-time bills. -/
def isOverdueDueDate (today : CalDate) (bill : BillListItem) : Option CalDate :=
  if bill.recurrence = some BillRecurrence.monthly then
    getRecurringDueDateInCurrentMonth today bill.dayOfMonth
  else
    match truthyStr bill.dueDate with
    | none => none
    | some s => parseYYYYMMDD s

/-- `isOverdue` (`part_001:589`): `false` for derived-paid bills, `false`
when no due date resolves, else strictly-before-today at day granularity. -/
def isOverdue (today : CalDate) (bill : BillListItem) : Bool :=
  if getDerivedStatus today bill ≠ BillStatus.unpaid then false
  else
    match isOverdueDueDate today bill with
    | none => false
    | some dueDate => dateLtB dueDate today

/-- First sort component (`part_001:609`): derived-unpaid bills order before
derived-paid ones. -/
def statusOrder (today : CalDate) (bill : BillListItem) : Int :=
  if getDerivedStatus today bill = BillStatus.unpaid then 0 else 1

/-- Second sort component (`part_001:615`): the resolved due time, `none`
standing for `Number.POSITIVE_INFINITY`. -/
def billDueKey (today : CalDate) (bill : BillListItem) : Option CalDate :=
  if bill.recurrence = some BillRecurrence.monthly then
    getRecurringDueDateInCurrentMonth today bill.dayOfMonth
  else parseOneTimeDueDate bill.dueDate

/-- Order of the due-or-infinity sort keys (`dueA - dueB` on times with
`+∞`); only consulted when the two keys differ. -/
def dueKeyLtB (a b : Option CalDate) : Bool :=
  match a, b with
  | none, _ => false
  | some _, none => true
  | some x, some y => dateLtB x y

/-- The three-part comparator of `sortedBills` (`part_001:608`): derived
status, then due time with missing dates last, then `name.localeCompare`. -/
def billCmp (today : CalDate) (a b : BillListItem) : Ordering :=
  let sa := statusOrder today a
  let sb := statusOrder today b
  if sa ≠ sb then (if sa < sb then Ordering.lt else Ordering.gt)
  else
    let da := billDueKey today a
    let db := billDueKey today b
    if da ≠ db then (if dueKeyLtB da db then Ordering.lt else Ordering.gt)
    else
      if a.name < b.name then Ordering.lt
      else if a.name = b.name then Ordering.eq
      else Ordering.gt

/-- The non-strict comparator relation used to sort. -/
def billLe (today : CalDate) (a b : BillListItem) : Prop :=
  billCmp today a b ≠ Ordering.gt

instance (today : CalDate) : DecidableRel (billLe today) := fun a b => by
  unfold billLe
  infer_instance

/-- `sortedBills` (`part_001:608`): the bill list sorted by `billCmp`
(`Array.prototype.sort` is a stable comparator sort; insertion sort is the
stable sort realizing the same order). -/
def sortedBills (today : CalDate) (bills : List BillListItem) : List BillListItem :=
  List.insertionSort (billLe today) bills

/-- Accumulator of the summary `reduce` (`part_001:639`). -/
structure MonthTotals where
  dueThisMonthTotal : ℚ
  paidThisMonthTotal : ℚ
  overdueTotal : ℚ
deriving DecidableEq, Repr

/-- One step of the summary `reduce` (`part_001:640`): recurring bills count
as due when their recurring date resolves, one-time bills when their parsed
due date lies in the current month; paid totals follow the stored
settlement fields; overdue adds `isOverdue` bills. -/
def monthTotalsStep (today : CalDate) (totals : MonthTotals) (bill : BillListItem) :
    MonthTotals :=
  let isRecurring := bill.recurrence = some BillRecurrence.monthly
  let recurringDueDate :=
    if isRecurring then getRecurringDueDateInCurrentMonth today bill.dayOfMonth
    else none
  let oneTimeDueDate :=
    if ¬isRecurring then
      match truthyStr bill.dueDate with
      | none => none
      | some s => parseYYYYMMDD s
    else none
  let oneTimeIsCurrentMonth :=
    match oneTimeDueDate with
    | none => false
    | some d => getMonth d = today.month - 1 ∧ getFullYear d = today.year
  let totals :=
    if isRecurring then
      let totals :=
        if recurringDueDate.isSome then
          { totals with dueThisMonthTotal := totals.dueThisMonthTotal + bill.amount }
        else totals
      if bill.paidForMonth = some (currentYYYYMM today) then
        { totals with paidThisMonthTotal := totals.paidThisMonthTotal + bill.amount }
      else totals
    else if oneTimeIsCurrentMonth then
      let totals :=
        { totals with dueThisMonthTotal := totals.dueThisMonthTotal + bill.amount }
      if bill.status = BillStatus.paid then
        { totals with paidThisMonthTotal := totals.paidThisMonthTotal + bill.amount }
      else totals
    else totals
  if isOverdue today bill then
    { totals with overdueTotal := totals.overdueTotal + bill.amount }
  else totals

/-- The summary totals (`part_001:639`), a left fold exactly as
`Array.prototype.reduce`. -/
def monthTotals (today : CalDate) (bills : List BillListItem) : MonthTotals :=
  bills.foldl (monthTotalsStep today) ⟨0, 0, 0⟩

/-- The settlement mutation payload sent by autopay
(`updateDoc(billRef, ...)`, `part_001:541` and `part_001:570`). -/
inductive MutationPayload where
  | setPaidForMonth (period : String)
  | setStatusPaid
deriving DecidableEq, Repr

/-- One attempted autopay settlement mutation, tagged with its idempotency
key. -/
structure AutopayMutation where
  billId : String
  key : String
  payload : MutationPayload
deriving DecidableEq, Repr

/-- The per-bill body of the autopay loop (`part_001:515`): decide whether a
settlement mutation is attempted for `bill`, given the processed-key set.
Success of the store write is not modeled: the source adds the key in a
`finally` whether or not `updateDoc` succeeded, so a returned mutation is
an *attempt* and the key is always marked. -/
def autopayDecision (today : CalDate) (keys : List String) (bill : BillListItem) :
    Option AutopayMutation :=
  if bill.autopay ≠ true then none
  else if bill.recurrence = some BillRecurrence.monthly then
    if bill.paidForMonth = some (currentYYYYMM today) then none
    else
      match getRecurringDueDateInCurrentMonth today bill.dayOfMonth with
      | none => none
      | some recurringDueDate =>
        if dateLtB today recurringDueDate then none
        else
          let recurringKey := bill.id ++ ":" ++ currentYYYYMM today
          if recurringKey ∈ keys then none
          else some ⟨bill.id, recurringKey,
            MutationPayload.setPaidForMonth (currentYYYYMM today)⟩
  else
    if bill.status = BillStatus.paid then none
    else
      match truthyStr bill.dueDate with
      | none => none
      | some s =>
        match parseYYYYMMDD s with
        | none => none
        | some oneTimeDueDate =>
          if dateLtB today oneTimeDueDate then none
          else
            let oneTimeKey := bill.id ++ ":" ++ s
            if oneTimeKey ∈ keys then none
            else some ⟨bill.id, oneTimeKey, MutationPayload.setStatusPaid⟩

/-- `runAutopay` (`part_001:505`): scan the bill list in order, threading the
per-session processed-key set (a `Set` read only through membership, so a
list with cons suffices) and collecting every attempted mutation.  The
cancellation flag only truncates a scan; completed scans are modeled. -/
def autopayScan (today : CalDate) :
    List BillListItem → List String → List String × List AutopayMutation
  | [], keys => (keys, [])
  | bill :: rest, keys =>
    match autopayDecision today keys bill with
    | some m =>
      let r := autopayScan today rest (m.key :: keys)
      (r.1, m :: r.2)
    | none => autopayScan today rest keys

/-- Calendar chip status (`ChipStatus` in `BillsCalendar.tsx`). -/
inductive ChipStatus where
  | paid
  | unpaid
  | overdue
deriving DecidableEq, Repr

/-- An exact two-decimal rendering standing in for `amount.toFixed(2)`
inside chip labels (no claim depends on the label text). -/
def money2 (q : ℚ) : String :=
  toString (q.num * 100 / q.den) 

/-- `CalendarEvent` (`BillsCalendar.tsx:16`); `sortTime` keeps the midnight
date whose `getTime()` the source stores. -/
structure CalendarEvent where
  billId : String
  dayOfMonth : Int
  status : ChipStatus
  name : String
  amount : ℚ
  label : String
  sortTime : CalDate
deriving DecidableEq, Repr

/-- `isMonthInFuture` (`BillsCalendar.tsx:59`); months 0-based as in the
source. -/
def isMonthInFuture (viewYear viewMonth todayYear todayMonth : Int) : Bool :=
  viewYear > todayYear ∨ (viewYear = todayYear ∧ viewMonth > todayMonth)

/-- The per-bill body of the `eventsByDay` loop (`BillsCalendar.tsx:129`):
at most one event per bill for the viewed `(year, month0)` grid. -/
def billEvent (viewedYear viewedMonth0 : Int) (today : CalDate)
    (bill : BillListItem) : Option CalendarEvent :=
  let viewedYYYYMM := yyyymmString viewedYear (viewedMonth0 + 1)
  if bill.recurrence = some BillRecurrence.monthly then
    match getRecurringDueDateInViewedMonth viewedYear viewedMonth0 bill.dayOfMonth with
    | none => none
    | some recurringDueDate =>
      let isPaid := bill.paidForMonth = some viewedYYYYMM
      let isFutureMonth :=
        isMonthInFuture viewedYear viewedMonth0 today.year (today.month - 1)
      let overdueFlag := ¬isPaid ∧ ¬(isFutureMonth = true) ∧
        dateLtB recurringDueDate today
      some
        { billId := bill.id
          dayOfMonth := getDate recurringDueDate
          status :=
            if isPaid then ChipStatus.paid
            else if overdueFlag then ChipStatus.overdue
            else ChipStatus.unpaid
          name := bill.name
          amount := bill.amount
          label := bill.name ++ " - $" ++ money2 bill.amount
          sortTime := recurringDueDate }
  else
    match truthyStr bill.dueDate with
    | none => none
    | some s =>
      match parseYYYYMMDD s with
      | none => none
      | some oneTimeDueDate =>
        if getFullYear oneTimeDueDate ≠ viewedYear
            ∨ getMonth oneTimeDueDate ≠ viewedMonth0 then none
        else
          let isPaid := bill.status = BillStatus.paid
          let overdueFlag := ¬isPaid ∧ dateLtB oneTimeDueDate today
          some
            { billId := bill.id
              dayOfMonth := getDate oneTimeDueDate
              status :=
                if isPaid then ChipStatus.paid
                else if overdueFlag then ChipStatus.overdue
                else ChipStatus.unpaid
              name := bill.name
              amount := bill.amount
              label := bill.name ++ " - $" ++ money2 bill.amount
              sortTime := oneTimeDueDate }

/-- All calendar events the grid produces for the viewed month, in bill
order (the flat view of the `eventsByDay` map before per-day grouping). -/
def eventsList (viewedYear viewedMonth0 : Int) (today : CalDate)
    (bills : List BillListItem) : List CalendarEvent :=
  bills.filterMap (billEvent viewedYear viewedMonth0 today)

/-- Per-day event sort relation (`BillsCalendar.tsx:190`): due time, then
label. -/
def eventLe (a b : CalendarEvent) : Prop :=
  dateLtB a.sortTime b.sortTime = true ∨
    (a.sortTime = b.sortTime ∧ a.label ≤ b.label)

instance : DecidableRel eventLe := fun a b => by
  unfold eventLe
  infer_instance

/-- `eventsByDay.get(day)` (`BillsCalendar.tsx:124`): the events of one day
cell, grouped by rendered day and sorted by `(sortTime, label)`. -/
def eventsByDay (viewedYear viewedMonth0 : Int) (today : CalDate)
    (bills : List BillListItem) (day : Int) : List CalendarEvent :=
  List.insertionSort eventLe
    ((eventsList viewedYear viewedMonth0 today bills).filter
      (fun e => e.dayOfMonth = day))

/-- The update payload `toggleBillStatus` writes (`part_002:199`): monthly
bills get both `paidForMonth` and `status`, one-time bills only `status`. -/
inductive ToggleUpdate where
  | monthlyUpdate (paidForMonth : Option String) (status : BillStatus)
  | oneTimeUpdate (status : BillStatus)
deriving DecidableEq, Repr

/-- The whitespace class stripped by `String.prototype.trim` (the common
ASCII members; the logic only ever trims `YYYY-MM` period strings). -/
def isJsWhitespace (c : Char) : Bool :=
  c = ' ' ∨ c = '\t' ∨ c = '\n' ∨ c = '\r' ∨ c = '\x0b' ∨ c = '\x0c'

/-- The embedding of `String.prototype.trim`: strip leading and trailing
whitespace. -/
def jsTrim (s : String) : String :=
  String.mk (((s.data.dropWhile isJsWhitespace).reverse.dropWhile
    isJsWhitespace).reverse)

/-- `options?.currentYYYYMM?.trim() || getCurrentYYYYMM()`
(`part_002:218`): the trimmed supplied period when truthy, else the
current period. -/
def resolveToggleYYYYMM (optYYYYMM : Option String) (nowYYYYMM : String) : String :=
  match optYYYYMM with
  | none => nowYYYYMM
  | some v => if jsTrim v = "" then nowYYYYMM else jsTrim v

/-- `toggleBillStatus` (`part_002:199`) as the pure function from its inputs
to the written payload.  `storedRecurrence` is what the fallback
`getDoc` read would report (collapsing "document missing" and
"recurrence not monthly" to `none`, exactly as the source's
`=== "monthly" ? "monthly" : null` does). -/
def toggleBillStatus (storedRecurrence : Option BillRecurrence)
    (nextStatus : BillStatus) (optRecurrence : Option BillRecurrence)
    (optYYYYMM : Option String) (nowYYYYMM : String) : ToggleUpdate :=
  let recurrence :=
    if optRecurrence = some BillRecurrence.monthly then some BillRecurrence.monthly
    else none
  let recurrence :=
    if recurrence = none then
      if storedRecurrence = some BillRecurrence.monthly then
        some BillRecurrence.monthly
      else none
    else recurrence
  if recurrence = some BillRecurrence.monthly then
    let yyyymm := resolveToggleYYYYMM optYYYYMM nowYYYYMM
    ToggleUpdate.monthlyUpdate
      (if nextStatus = BillStatus.paid then some yyyymm else none) nextStatus
  else ToggleUpdate.oneTimeUpdate nextStatus

/-- `handleToggleBillStatusWithContext` (`part_001:405`): flips the supplied
(or derived) current status and forwards the viewed period — the calendar
grid passes its `viewedYYYYMM`, the dashboard list passes the current
one — falling back to the current period when no context is given. -/
def handleToggleBillStatusWithContext (today : CalDate) (bill : BillListItem)
    (ctxViewedYYYYMM : Option String) (ctxCurrentStatus : Option ChipStatus) :
    ToggleUpdate :=
  let currentStatus :=
    match ctxCurrentStatus with
    | some s => s
    | none =>
      match getDerivedStatus today bill with
      | BillStatus.paid => ChipStatus.paid
      | BillStatus.unpaid => ChipStatus.unpaid
  let normalizedCurrentStatus :=
    if currentStatus = ChipStatus.paid then BillStatus.paid else BillStatus.unpaid
  let nextStatus :=
    if normalizedCurrentStatus = BillStatus.paid then BillStatus.unpaid
    else BillStatus.paid
  let effectiveYYYYMM :=
    match ctxViewedYYYYMM with
    | some v => v
    | none => currentYYYYMM today
  toggleBillStatus none nextStatus bill.recurrence (some effectiveYYYYMM)
    (currentYYYYMM today)

/-- An untyped Firestore field value as `listenToBills` (`part_002:233`)
reads it: JS `null` and `undefined` behave identically in every check the
normalizer performs, so both are `jsNull`; `other` covers objects, arrays
and timestamps. -/
inductive JsVal where
  | jsNull
  | str (s : String)
  | num (q : ℚ)
  | jsBool (b : Bool)
  | other
deriving DecidableEq, Repr

/-- A raw bill document (`billDoc.data()`) with the fields the normalizer
reads. -/
structure RawBillDoc where
  name : JsVal
  amount : JsVal
  dueDate : JsVal
  status : JsVal
  recurrence : JsVal
  dayOfMonth : JsVal
  paidForMonth : JsVal
deriving DecidableEq, Repr

/-- The per-document normalization of `listenToBills` (`part_002:238`).
`part_002` does not emit an `autopay` field; reading `autopay === true` on
such an item yields `false`, so the flag is embedded as `false`. -/
def normalizeBillDoc (id : String) (r : RawBillDoc) : BillListItem :=
  { id := id
    name := match r.name with | JsVal.str s => s | _ => ""
    amount := match r.amount with | JsVal.num q => q | _ => 0
    dueDate :=
      match r.dueDate with
      | JsVal.str s => some s
      | _ => none
    status := if r.status = JsVal.str "paid" then BillStatus.paid else BillStatus.unpaid
    recurrence :=
      if r.recurrence = JsVal.str "monthly" then some BillRecurrence.monthly
      else none
    dayOfMonth :=
      match r.dayOfMonth with
      | JsVal.num q => if q.den = 1 ∧ 1 ≤ q ∧ q ≤ 31 then some q else none
      | _ => none
    paidForMonth :=
      match r.paidForMonth with
      | JsVal.str s => some s
      | _ => none
    autopay := false }

/-- A sample monthly bill used by concrete witnesses. -/
def monthlyDemoBill : BillListItem :=
  { id := "b1", name := "Rent", amount := 1200, dueDate := none
    status := BillStatus.unpaid, recurrence := some BillRecurrence.monthly
    dayOfMonth := some 31, paidForMonth := some "2024-03", autopay := true }

/-- A sample one-time bill used by concrete witnesses. -/
def oneTimeDemoBill : BillListItem :=
  { id := "b2", name := "Dentist", amount := 90, dueDate := some "2024-03-05"
    status := BillStatus.unpaid, recurrence := none
    dayOfMonth := none, paidForMonth := none, autopay := true }

/-- The idempotency key of a bill: `billId:currentYYYYMM` for Monthly,
`billId:dueDate` for OneTime. -/
def autopayKey (today : CalDate) (bill : BillListItem) : String :=
  if bill.recurrence = some BillRecurrence.monthly then
    bill.id ++ ":" ++ currentYYYYMM today
  else
    bill.id ++ ":" ++ (match truthyStr bill.dueDate with
      | none => ""
      | some s => s)

/-- Keys-independent autopay eligibility: autopay enabled, derived `Unpaid`
for the current period, and a resolved due date on or before today. -/
def autopayEligible (today : CalDate) (bill : BillListItem) : Bool :=
  bill.autopay &&
    (getDerivedStatus today bill == BillStatus.unpaid) &&
    (match isOverdueDueDate today bill with
      | none => false
      | some d => !(dateLtB today d))

/-- The settlement mutation autopay attempts for an eligible bill. -/
def autopayMutation (today : CalDate) (bill : BillListItem) : AutopayMutation :=
  if bill.recurrence = some BillRecurrence.monthly then
    ⟨bill.id, autopayKey today bill,
      MutationPayload.setPaidForMonth (currentYYYYMM today)⟩
  else ⟨bill.id, autopayKey today bill, MutationPayload.setStatusPaid⟩

/-- The spec-side ordering key of §4.4, as a lexicographic relation:
derived-unpaid before derived-paid, then resolved due time ascending with
unresolved dates last, then name. -/
def billSortKeyLe (today : CalDate) (a b : BillListItem) : Prop :=
  statusOrder today a < statusOrder today b ∨
    (statusOrder today a = statusOrder today b ∧
      (dueKeyLtB (billDueKey today a) (billDueKey today b) = true ∨
        (billDueKey today a = billDueKey today b ∧ a.name ≤ b.name)))

/-- A well-formed "today" as `new Date()` produces it: a real current year
and a 1-based month in range. -/
def ValidCalDate (d : CalDate) : Prop :=
  100 ≤ d.year ∧ 1 ≤ d.month ∧ d.month ≤ 12

/-- Modelled from the spec's §4.4 wording for `dueThisMonthTotal`: the
resolved due date (Monthly: the recurring date resolved in the current
month; OneTime: the parsed due date). -/
def resolvedDueThisMonth (today : CalDate) (bill : BillListItem) :
    Option CalDate :=
  if bill.recurrence = some BillRecurrence.monthly then
    getRecurringDueDateInCurrentMonth today bill.dayOfMonth
  else
    match bill.dueDate with
    | none => none
    | some s => parseYYYYMMDD s

/-- Modelled from the spec's §4.4 wording: the bill's resolved due date
falls in the current calendar month, regardless of paid state. -/
def dueThisMonthSpec (today : CalDate) (bill : BillListItem) : Bool :=
  match resolvedDueThisMonth today bill with
  | none => false
  | some d => decide (d.year = today.year ∧ d.month = today.month)

/-- The calendar event `oneTimeDemoBill` (due 2030-01-15) projects into
January 2030. -/
def futureDemoEvent : CalendarEvent :=
  { billId := "b2", dayOfMonth := 15, status := ChipStatus.unpaid
    name := "Dentist", amount := 90, label := "Dentist - $9000"
    sortTime := ⟨2030, 1, 15⟩ }

/-- C2: for a Monthly bill, `derive(bill, p)` is `Paid` iff `paidForMonth`
equals the queried `YYYY-MM` period under exact string equality; for a
OneTime bill it returns the stored `status` verbatim, for any period. -/
theorem derive_status_exact_period (bill : BillListItem) (p : String) :
    (bill.recurrence = some BillRecurrence.monthly →
      (deriveStatus bill p = BillStatus.paid ↔ bill.paidForMonth = some p)) ∧
    (bill.recurrence = none → deriveStatus bill p = bill.status) := by
  constructor
  · intro h
    simp only [deriveStatus, h, if_pos rfl]
    split
    · simp_all
    · simp_all
  · intro h
    simp [deriveStatus, h]

/-- C2 witness at a concrete monthly bill and period. -/
theorem derive_status_exact_period_witness :
    deriveStatus monthlyDemoBill "2024-03" = BillStatus.paid ↔
      monthlyDemoBill.paidForMonth = some "2024-03" :=
  (derive_status_exact_period monthlyDemoBill "2024-03").1 rfl

/-- C3: `isOverdue` is `true` exactly when the bill derives `Unpaid` and a
due date resolves strictly before today at day granularity; in particular it
is `false` for derived-`Paid` bills, `false` when no due date resolves, and
`false` for a bill due exactly today. -/
theorem is_overdue_characterization (today : CalDate) (bill : BillListItem) :
    (isOverdue today bill = true ↔
      getDerivedStatus today bill = BillStatus.unpaid ∧
        ∃ d, isOverdueDueDate today bill = some d ∧ dateLtB d today = true) ∧
    (getDerivedStatus today bill = BillStatus.paid → isOverdue today bill = false) ∧
    (isOverdueDueDate today bill = none → isOverdue today bill = false) ∧
    (isOverdueDueDate today bill = some today → isOverdue today bill = false) := by
  have hirr : dateLtB today today = false := by
    simp [dateLtB]
  refine ⟨?_, ?_, ?_, ?_⟩
  · unfold isOverdue
    rcases hst : getDerivedStatus today bill with _ | _
    · simp only [hst, ne_eq, not_true_eq_false, if_false]
      rcases hdd : isOverdueDueDate today bill with _ | d
      · simp
      · simp
    · simp [hst]
  · intro h
    simp [isOverdue, h]
  · intro h
    unfold isOverdue
    rcases hst : getDerivedStatus today bill with _ | _
    · simp [h]
    · simp
  · intro h
    unfold isOverdue
    rcases hst : getDerivedStatus today bill with _ | _
    · simp [h, hirr]
    · simp

/-- C3 witness: a bill whose one-time due date resolves to exactly today is
not overdue, and the characterization holds at a concrete input. -/
theorem is_overdue_characterization_witness :
    isOverdue ⟨2024, 3, 5⟩ oneTimeDemoBill = false :=
  (is_overdue_characterization ⟨2024, 3, 5⟩ oneTimeDemoBill).2.2.2 (by decide)

/-- C8: `parseCalendarDate` accepts only the strict
4-digit/2-digit/2-digit pattern and only when the date re-derived from the
three parts round-trips to exactly those parts; every failure yields `none`
(the function is total by construction), and `"2024-02-30"` is rejected. -/
theorem parse_calendar_date_strict :
    (∀ s d, parseYYYYMMDD s = some d →
      ∃ y m dd, splitDateParts s = some (y, m, dd) ∧
        d.year = y ∧ d.month = m ∧ d.day = dd) ∧
    parseYYYYMMDD "2024-02-30" = none := by
  constructor
  · intro s d h
    unfold parseYYYYMMDD at h
    rcases hp : splitDateParts s with _ | ⟨y, m, dd⟩
    · rw [hp] at h
      exact absurd h (by simp)
    · rw [hp] at h
      dsimp only at h
      refine ⟨y, m, dd, rfl, ?_⟩
      by_cases hg : getFullYear (jsMakeDate y (m - 1) dd) ≠ y
          ∨ getMonth (jsMakeDate y (m - 1) dd) ≠ m - 1
          ∨ getDate (jsMakeDate y (m - 1) dd) ≠ dd
      · rw [if_pos hg] at h
        exact absurd h (by simp)
      · rw [if_neg hg] at h
        push_neg at hg
        obtain ⟨h1, h2, h3⟩ := hg
        obtain rfl : jsMakeDate y (m - 1) dd = d := by
          exact Option.some_injective _ h
        refine ⟨h1, ?_, h3⟩
        have := h2
        unfold getMonth at this
        omega
  · decide

/-- C8 witness: a valid date is parsed and its parts agree. -/
theorem parse_calendar_date_strict_witness :
    ∃ y m dd, splitDateParts "2024-03-05" = some (y, m, dd) ∧
      (⟨2024, 3, 5⟩ : CalDate).year = y ∧ (⟨2024, 3, 5⟩ : CalDate).month = m ∧
      (⟨2024, 3, 5⟩ : CalDate).day = dd :=
  parse_calendar_date_strict.1 "2024-03-05" ⟨2024, 3, 5⟩ (by decide)

/-- C9: for a Monthly bill, `toggleBillStatus` with `nextStatus = paid`
writes `paidForMonth := the supplied period` (the trimmed context period when
non-empty — the calendar grid supplies its viewed `YYYY-MM` — else the
current month), with `nextStatus = unpaid` it writes `paidForMonth := null`;
both writes also set the stored `status` field, which Monthly derived status
never reads; and from the grid an unpaid chip toggles to settle the viewed
period. -/
theorem toggle_monthly_settles_supplied_period
    (storedRec optRec : Option BillRecurrence) (optYYYYMM : Option String)
    (nowYYYYMM : String)
    (h : optRec = some BillRecurrence.monthly ∨
      storedRec = some BillRecurrence.monthly) :
    toggleBillStatus storedRec BillStatus.paid optRec optYYYYMM nowYYYYMM
      = ToggleUpdate.monthlyUpdate
          (some (resolveToggleYYYYMM optYYYYMM nowYYYYMM)) BillStatus.paid ∧
    toggleBillStatus storedRec BillStatus.unpaid optRec optYYYYMM nowYYYYMM
      = ToggleUpdate.monthlyUpdate none BillStatus.unpaid ∧
    (∀ v, optYYYYMM = some v → jsTrim v ≠ "" →
      resolveToggleYYYYMM optYYYYMM nowYYYYMM = jsTrim v) ∧
    (optYYYYMM = none ∨ optYYYYMM = some "" →
      resolveToggleYYYYMM optYYYYMM nowYYYYMM = nowYYYYMM) ∧
    (∀ (bill : BillListItem) (st : BillStatus) (p : String),
      bill.recurrence = some BillRecurrence.monthly →
      deriveStatus { bill with status := st } p = deriveStatus bill p) ∧
    (∀ (today : CalDate) (bill : BillListItem) (v : String),
      bill.recurrence = some BillRecurrence.monthly → jsTrim v ≠ "" →
      handleToggleBillStatusWithContext today bill (some v)
          (some ChipStatus.unpaid)
        = ToggleUpdate.monthlyUpdate (some (jsTrim v)) BillStatus.paid) := by
  have hmain : ∀ st : BillStatus,
      toggleBillStatus storedRec st optRec optYYYYMM nowYYYYMM
        = ToggleUpdate.monthlyUpdate
            (if st = BillStatus.paid
              then some (resolveToggleYYYYMM optYYYYMM nowYYYYMM) else none) st := by
    intro st
    unfold toggleBillStatus
    rcases h with h | h
    · simp [h]
    · rcases hopt : optRec with _ | ⟨_⟩
      · simp [h]
      · simp
  refine ⟨by simpa using hmain BillStatus.paid,
    by simpa using hmain BillStatus.unpaid, ?_, ?_, ?_, ?_⟩
  · intro v hv hne
    simp [resolveToggleYYYYMM, hv, hne]
  · intro hv
    rcases hv with hv | hv
    · simp [resolveToggleYYYYMM, hv]
    · have h0 : jsTrim "" = "" := by decide
      simp [resolveToggleYYYYMM, hv, h0]
  · intro bill st p hb
    simp [deriveStatus, hb]
  · intro today bill v hb hne
    unfold handleToggleBillStatusWithContext
    simp only []
    unfold toggleBillStatus
    simp [hb, resolveToggleYYYYMM, hne]

/-- C9 witness: toggling a monthly bill to paid from the March 2024 calendar
grid while the current month is April 2024 settles `"2024-03"`. -/
theorem toggle_monthly_settles_supplied_period_witness :
    toggleBillStatus none BillStatus.paid (some BillRecurrence.monthly)
        (some "2024-03") "2024-04"
      = ToggleUpdate.monthlyUpdate
          (some (resolveToggleYYYYMM (some "2024-03") "2024-04"))
          BillStatus.paid :=
  (toggle_monthly_settles_supplied_period none (some BillRecurrence.monthly)
    (some "2024-03") "2024-04" (Or.inl rfl)).1

/-- C10: every `BillListItem` delivered by the bill-list feed is normalized:
`status` degrades to `unpaid` unless the raw field is exactly `"paid"`,
`recurrence` is `monthly` only for the exact `"monthly"` string,
`dayOfMonth` is `null` or an integer in `[1, 31]`, non-numeric amounts
degrade to `0`, and `dueDate` is a string or `null`. -/
theorem listen_to_bills_normalized (id : String) (r : RawBillDoc) :
    ((normalizeBillDoc id r).status = BillStatus.paid ∨
      (normalizeBillDoc id r).status = BillStatus.unpaid) ∧
    ((normalizeBillDoc id r).status = BillStatus.paid ↔
      r.status = JsVal.str "paid") ∧
    ((normalizeBillDoc id r).recurrence = some BillRecurrence.monthly ↔
      r.recurrence = JsVal.str "monthly") ∧
    ((normalizeBillDoc id r).dayOfMonth = none ∨
      ∃ q, (normalizeBillDoc id r).dayOfMonth = some q ∧
        q.den = 1 ∧ 1 ≤ q ∧ q ≤ 31) ∧
    (∀ q, r.amount = JsVal.num q → (normalizeBillDoc id r).amount = q) ∧
    ((∀ q, r.amount ≠ JsVal.num q) → (normalizeBillDoc id r).amount = 0) ∧
    ((normalizeBillDoc id r).dueDate = none ∨
      ∃ s, (normalizeBillDoc id r).dueDate = some s ∧
        r.dueDate = JsVal.str s) := by
  refine ⟨?_, ?_, ?_, ?_, ?_, ?_, ?_⟩
  · by_cases h : r.status = JsVal.str "paid"
    · left
      simp [normalizeBillDoc, h]
    · right
      simp [normalizeBillDoc, h]
  · by_cases h : r.status = JsVal.str "paid"
    · simp [normalizeBillDoc, h]
    · simp [normalizeBillDoc, h]
  · by_cases h : r.recurrence = JsVal.str "monthly"
    · simp [normalizeBillDoc, h]
    · simp [normalizeBillDoc, h]
  · rcases hq : r.dayOfMonth with _ | s | q | b | _
    · exact Or.inl (by simp [normalizeBillDoc, hq])
    · exact Or.inl (by simp [normalizeBillDoc, hq])
    · by_cases hcond : q.den = 1 ∧ 1 ≤ q ∧ q ≤ 31
      · right
        exact ⟨q, by simp [normalizeBillDoc, hq, hcond], hcond.1, hcond.2.1,
          hcond.2.2⟩
      · left
        simp [normalizeBillDoc, hq, hcond]
    · exact Or.inl (by simp [normalizeBillDoc, hq])
    · exact Or.inl (by simp [normalizeBillDoc, hq])
  · intro q hq
    simp [normalizeBillDoc, hq]
  · intro hq
    rcases hr : r.amount with _ | s | q | b | _
    · simp [normalizeBillDoc, hr]
    · simp [normalizeBillDoc, hr]
    · exact absurd hr (hq q)
    · simp [normalizeBillDoc, hr]
    · simp [normalizeBillDoc, hr]
  · rcases hr : r.dueDate with _ | s | q | b | _
    · exact Or.inl (by simp [normalizeBillDoc, hr])
    · exact Or.inr ⟨s, by simp [normalizeBillDoc, hr], rfl⟩
    · exact Or.inl (by simp [normalizeBillDoc, hr])
    · exact Or.inl (by simp [normalizeBillDoc, hr])
    · exact Or.inl (by simp [normalizeBillDoc, hr])

/-- C10 witness: a raw document with an out-of-range day-of-month and a
non-numeric amount is degraded as the invariant states. -/
theorem listen_to_bills_normalized_witness :
    (normalizeBillDoc "b9"
        { name := JsVal.str "Water", amount := JsVal.str "oops"
          dueDate := JsVal.jsNull, status := JsVal.str "overdue"
          recurrence := JsVal.str "monthly", dayOfMonth := JsVal.num 42
          paidForMonth := JsVal.jsNull }).amount = 0 :=
  (listen_to_bills_normalized "b9"
    { name := JsVal.str "Water", amount := JsVal.str "oops"
      dueDate := JsVal.jsNull, status := JsVal.str "overdue"
      recurrence := JsVal.str "monthly", dayOfMonth := JsVal.num 42
      paidForMonth := JsVal.jsNull }).2.2.2.2.2.1 (by intro q h; cases h)

theorem autopayDecision_eq_some_iff (today : CalDate) (keys : List String)
    (bill : BillListItem) (m : AutopayMutation) :
    autopayDecision today keys bill = some m ↔
      (autopayEligible today bill = true ∧ m = autopayMutation today bill ∧
        autopayKey today bill ∉ keys) := by
  by_cases hA : bill.autopay = true
  · rcases hrec : bill.recurrence with _ | ⟨_⟩
    · -- one-time branch
      by_cases hS : bill.status = BillStatus.paid
      · have hd : getDerivedStatus today bill = BillStatus.paid := by
          simp [getDerivedStatus, deriveStatus, hrec, hS]
        simp [autopayDecision, autopayEligible, hA, hrec, hS, hd]
      · have hunp : bill.status = BillStatus.unpaid := by
          cases hb : bill.status
          · rfl
          · exact absurd hb hS
        have hd : getDerivedStatus today bill = BillStatus.unpaid := by
          simp [getDerivedStatus, deriveStatus, hrec, hunp]
        rcases ht : truthyStr bill.dueDate with _ | s
        · simp [autopayDecision, autopayEligible, isOverdueDueDate, hA, hrec,
            hS, ht, hd]
        · rcases hp : parseYYYYMMDD s with _ | d
          · simp [autopayDecision, autopayEligible, isOverdueDueDate, hA,
              hrec, hS, ht, hp, hd]
          · by_cases hlt : dateLtB today d = true
            · simp [autopayDecision, autopayEligible, isOverdueDueDate, hA,
                hrec, hS, ht, hp, hlt, hd]
            · by_cases hk : bill.id ++ ":" ++ s ∈ keys
              · have hkey : autopayKey today bill = bill.id ++ ":" ++ s := by
                  simp [autopayKey, hrec, ht]
                simp [autopayDecision, autopayEligible, isOverdueDueDate, hA,
                  hrec, hS, ht, hp, hlt, hk, hkey, hd]
              · have hkey : autopayKey today bill = bill.id ++ ":" ++ s := by
                  simp [autopayKey, hrec, ht]
                simp only [autopayDecision, autopayEligible, autopayMutation,
                  isOverdueDueDate, hA, hrec, hS, ht, hp, hkey, hd]
                simp [hlt, hk, eq_comm]
    · -- monthly branch
      by_cases hP : bill.paidForMonth = some (currentYYYYMM today)
      · have hd : getDerivedStatus today bill = BillStatus.paid := by
          simp [getDerivedStatus, deriveStatus, hrec, hP]
        simp [autopayDecision, autopayEligible, hA, hrec, hP, hd]
      · have hd : getDerivedStatus today bill = BillStatus.unpaid := by
          simp [getDerivedStatus, deriveStatus, hrec, hP]
        rcases hr : getRecurringDueDateInCurrentMonth today bill.dayOfMonth
            with _ | d
        · simp [autopayDecision, autopayEligible, isOverdueDueDate, hA, hrec,
            hP, hr, hd]
        · by_cases hlt : dateLtB today d = true
          · simp [autopayDecision, autopayEligible, isOverdueDueDate, hA,
              hrec, hP, hr, hlt, hd]
          · by_cases hk : bill.id ++ ":" ++ currentYYYYMM today ∈ keys
            · have hkey : autopayKey today bill
                  = bill.id ++ ":" ++ currentYYYYMM today := by
                simp [autopayKey, hrec]
              simp [autopayDecision, autopayEligible, isOverdueDueDate, hA,
                hrec, hP, hr, hlt, hk, hkey, hd]
            · have hkey : autopayKey today bill
                  = bill.id ++ ":" ++ currentYYYYMM today := by
                simp [autopayKey, hrec]
              simp only [autopayDecision, autopayEligible, autopayMutation,
                isOverdueDueDate, hA, hrec, hP, hr, hkey, hd]
              simp [hlt, hk, eq_comm]
  · have hA' : bill.autopay = false := by
      cases hb : bill.autopay
      · rfl
      · exact absurd hb hA
    simp [autopayDecision, autopayEligible, hA', hA]

theorem autopayDecision_eq_none_iff (today : CalDate) (keys : List String)
    (bill : BillListItem) :
    autopayDecision today keys bill = none ↔
      (autopayEligible today bill = false ∨ autopayKey today bill ∈ keys) := by
  rcases hd : autopayDecision today keys bill with _ | m
  · simp only [true_iff]
    by_contra hcon
    push_neg at hcon
    obtain ⟨h1, h2⟩ := hcon
    have helig : autopayEligible today bill = true := by
      cases he : autopayEligible today bill
      · exact absurd he h1
      · rfl
    have : autopayDecision today keys bill = some (autopayMutation today bill) :=
      (autopayDecision_eq_some_iff today keys bill
        (autopayMutation today bill)).2 ⟨helig, rfl, h2⟩
    rw [hd] at this
    exact absurd this (by simp)
  · have h := (autopayDecision_eq_some_iff today keys bill m).1 hd
    constructor
    · intro hcon
      exact absurd hcon (by simp)
    · intro hcon
      exfalso
      rcases hcon with hcon | hcon
      · rw [h.1] at hcon
        cases hcon
      · exact h.2.2 hcon

theorem autopayScan_keys_mono (today : CalDate) :
    ∀ (bills : List BillListItem) (keys : List String),
      keys ⊆ (autopayScan today bills keys).1 := by
  intro bills
  induction bills with
  | nil =>
    intro keys
    simp [autopayScan]
  | cons bill rest ih =>
    intro keys
    unfold autopayScan
    rcases hd : autopayDecision today keys bill with _ | m
    · exact ih keys
    · simp only []
      exact List.Subset.trans (List.subset_cons_self m.key keys)
        (ih (m.key :: keys))

theorem autopayScan_issued (today : CalDate) :
    ∀ (bills : List BillListItem) (keys : List String),
      ∀ m ∈ (autopayScan today bills keys).2,
        m.key ∈ (autopayScan today bills keys).1 ∧ m.key ∉ keys ∧
        ∃ b ∈ bills, autopayEligible today b = true ∧
          m = autopayMutation today b := by
  intro bills
  induction bills with
  | nil =>
    intro keys m hm
    simp [autopayScan] at hm
  | cons bill rest ih =>
    intro keys m hm
    unfold autopayScan at hm ⊢
    rcases hd : autopayDecision today keys bill with _ | m0
    · rw [hd] at hm
      obtain ⟨h1, h2, b, hb, he⟩ := ih keys m hm
      exact ⟨h1, h2, b, List.mem_cons_of_mem bill hb, he⟩
    · rw [hd] at hm
      simp only [List.mem_cons] at hm
      have hchar := (autopayDecision_eq_some_iff today keys bill m0).1 hd
      rcases hm with hm | hm
      · subst hm
        have hkm : m.key = autopayKey today bill := by
          rw [hchar.2.1]
          rcases hrec : bill.recurrence with _ | ⟨_⟩
          · simp [autopayMutation, hrec]
          · simp [autopayMutation, hrec]
        refine ⟨autopayScan_keys_mono today rest (m.key :: keys)
          (List.mem_cons_self m.key keys), ?_, bill,
          List.mem_cons_self bill rest, hchar.1, hchar.2.1⟩
        rw [hkm]
        exact hchar.2.2
      · obtain ⟨h1, h2, b, hb, he⟩ := ih (m0.key :: keys) m hm
        refine ⟨h1, fun hc => h2 (List.mem_cons_of_mem m0.key hc), b,
          List.mem_cons_of_mem bill hb, he⟩

theorem autopayScan_key_nodup (today : CalDate) :
    ∀ (bills : List BillListItem) (keys : List String),
      ((autopayScan today bills keys).2.map
        (fun m => m.key)).Nodup := by
  intro bills
  induction bills with
  | nil =>
    intro keys
    simp [autopayScan]
  | cons bill rest ih =>
    intro keys
    unfold autopayScan
    rcases hd : autopayDecision today keys bill with _ | m0
    · exact ih keys
    · simp only [List.map_cons, List.nodup_cons]
      refine ⟨?_, ih (m0.key :: keys)⟩
      intro hc
      simp only [List.mem_map] at hc
      obtain ⟨m, hm, hk⟩ := hc
      have := (autopayScan_issued today rest (m0.key :: keys) m hm).2.1
      rw [hk] at this
      exact this (List.mem_cons_self m0.key keys)

theorem autopayScan_final_none (today : CalDate) :
    ∀ (bills : List BillListItem) (keys : List String),
      ∀ b ∈ bills,
        autopayDecision today (autopayScan today bills keys).1 b = none := by
  intro bills
  induction bills with
  | nil =>
    intro keys b hb
    simp at hb
  | cons bill rest ih =>
    intro keys b hb
    unfold autopayScan
    rcases hd : autopayDecision today keys bill with _ | m0
    · rcases List.mem_cons.1 hb with hb | hb
      · subst hb
        have hnone := (autopayDecision_eq_none_iff today keys b).1 hd
        rcases hnone with hnone | hnone
        · exact (autopayDecision_eq_none_iff today _ b).2 (Or.inl hnone)
        · exact (autopayDecision_eq_none_iff today _ b).2
            (Or.inr (autopayScan_keys_mono today rest keys hnone))
      · exact ih keys b hb
    · simp only []
      rcases List.mem_cons.1 hb with hb | hb
      · subst hb
        have hchar := (autopayDecision_eq_some_iff today keys b m0).1 hd
        refine (autopayDecision_eq_none_iff today _ b).2 (Or.inr ?_)
        have hkm : autopayKey today b = m0.key := by
          rw [hchar.2.1]
          rcases hrec : b.recurrence with _ | ⟨_⟩
          · simp [autopayMutation, hrec]
          · simp [autopayMutation, hrec]
        rw [hkm]
        exact autopayScan_keys_mono today rest (m0.key :: keys)
          (List.mem_cons_self m0.key keys)
      · exact ih (m0.key :: keys) b hb

theorem autopayScan_noop (today : CalDate) :
    ∀ (bills : List BillListItem) (keys : List String),
      (∀ b ∈ bills, autopayDecision today keys b = none) →
      (autopayScan today bills keys).2 = [] := by
  intro bills
  induction bills with
  | nil =>
    intro keys _
    simp [autopayScan]
  | cons bill rest ih =>
    intro keys hall
    unfold autopayScan
    rcases hd : autopayDecision today keys bill with _ | m0
    · exact ih keys (fun b hb => hall b (List.mem_cons_of_mem bill hb))
    · exact absurd hd (by simp [hall bill (List.mem_cons_self bill rest)])

/-- C1: autopay is at-most-once per key per session.  Every mutation the
scan issues belongs to an eligible bill (autopay on, derived `Unpaid`,
resolved due date on or before today) whose key was not yet processed; no
key receives two mutation attempts in one scan; every attempted key is
marked processed afterwards (whether or not the store write succeeded, which
the source ignores in a `finally`); and re-running the scan against the
unchanged bill list with the resulting key set issues zero further
mutations. -/
theorem autopay_at_most_once_per_key (today : CalDate) (keys : List String)
    (bills : List BillListItem) :
    (∀ m ∈ (autopayScan today bills keys).2, ∃ b ∈ bills,
        autopayEligible today b = true ∧ m = autopayMutation today b ∧
        m.key ∉ keys) ∧
    ((autopayScan today bills keys).2.map (fun m => m.key)).Nodup ∧
    (∀ m ∈ (autopayScan today bills keys).2,
        m.key ∈ (autopayScan today bills keys).1) ∧
    (autopayScan today bills ((autopayScan today bills keys).1)).2 = [] := by
  refine ⟨?_, autopayScan_key_nodup today bills keys, ?_, ?_⟩
  · intro m hm
    obtain ⟨h1, h2, b, hb, he, hme⟩ := autopayScan_issued today bills keys m hm
    exact ⟨b, hb, he, hme, h2⟩
  · intro m hm
    exact (autopayScan_issued today bills keys m hm).1
  · exact autopayScan_noop today bills (autopayScan today bills keys).1
      (autopayScan_final_none today bills keys)

/-- C1 witness: an eligible autopay-enabled monthly bill gets exactly one
settlement attempt on the first scan and none on a rescan of the unchanged
list. -/
theorem autopay_at_most_once_per_key_witness :
    (autopayScan ⟨2024, 4, 5⟩
        [{ monthlyDemoBill with paidForMonth := none, dayOfMonth := some 1 }]
        ((autopayScan ⟨2024, 4, 5⟩
          [{ monthlyDemoBill with paidForMonth := none, dayOfMonth := some 1 }]
          []).1)).2 = [] :=
  (autopay_at_most_once_per_key ⟨2024, 4, 5⟩ []
    [{ monthlyDemoBill with paidForMonth := none, dayOfMonth := some 1 }]).2.2.2

theorem daysInMonth_bounds (y m : Int) :
    28 ≤ daysInMonth y m ∧ daysInMonth y m ≤ 31 := by
  unfold daysInMonth
  split
  · omega
  · split
    · omega
    · split
      · omega
      · omega

theorem rollForwardAux_of_le (fuel : Nat) (y m d : Int)
    (h : d ≤ daysInMonth y m) :
    rollForwardAux (fuel + 1) y m d = ⟨y, m, d⟩ := by
  simp only [rollForwardAux]
  rw [if_neg (by omega)]

theorem rollBackAux_day_zero (fuel : Nat) (y m : Int) :
    rollBackAux (fuel + 2) y m 0 =
      ⟨(prevMonth y m).1, (prevMonth y m).2,
        daysInMonth (prevMonth y m).1 (prevMonth y m).2⟩ := by
  have hb := daysInMonth_bounds (prevMonth y m).1 (prevMonth y m).2
  simp only [rollBackAux]
  rw [if_pos (by omega)]
  simp only [zero_add]
  rw [if_neg (by omega)]

theorem jsMakeDate_valid (y m0 d : Int) (hy : 100 ≤ y) (hm : 0 ≤ m0)
    (hm' : m0 ≤ 11) (hd1 : 1 ≤ d) (hd2 : d ≤ daysInMonth y (m0 + 1)) :
    jsMakeDate y m0 d = ⟨y, m0 + 1, d⟩ := by
  have hq : ¬(0 ≤ y ∧ y ≤ 99) := by omega
  have hf : Int.fdiv m0 12 = 0 := by
    rw [Int.fdiv_eq_tdiv hm (by omega)]
    exact Int.tdiv_eq_zero_of_lt hm (by omega)
  have he : Int.emod m0 12 = m0 := Int.emod_eq_of_lt hm (by omega)
  simp only [jsMakeDate, hq, if_false, hf, he, add_zero]
  rw [if_neg (by omega)]
  obtain ⟨k, hk⟩ : ∃ k, d.toNat = k + 1 := ⟨d.toNat - 1, by omega⟩
  rw [hk]
  exact rollForwardAux_of_le k y (m0 + 1) d hd2

theorem jsMakeDate_day_zero (y m1 : Int) (hy : 100 ≤ y) (h1 : 1 ≤ m1)
    (h2 : m1 ≤ 12) :
    jsMakeDate y m1 0 = ⟨y, m1, daysInMonth y m1⟩ := by
  have hq : ¬(0 ≤ y ∧ y ≤ 99) := by omega
  by_cases h12 : m1 = 12
  · subst h12
    have hf : Int.fdiv 12 12 = 1 := by decide
    have he : Int.emod 12 12 = 0 := by decide
    simp only [jsMakeDate, hq, if_false, hf, he, zero_add]
    rw [if_pos (by omega)]
    have : ((1 : Int) - 0).toNat + 1 = 0 + 2 := by decide
    rw [this, rollBackAux_day_zero]
    have hy1 : y + 1 - 1 = y := by omega
    simp [prevMonth, hy1]
  · have hf : Int.fdiv m1 12 = 0 := by
      rw [Int.fdiv_eq_tdiv (by omega) (by omega)]
      exact Int.tdiv_eq_zero_of_lt (by omega) (by omega)
    have he : Int.emod m1 12 = m1 := Int.emod_eq_of_lt (by omega) (by omega)
    simp only [jsMakeDate, hq, if_false, hf, he, add_zero]
    rw [if_pos (by omega)]
    have : ((1 : Int) - 0).toNat + 1 = 0 + 2 := by decide
    rw [this, rollBackAux_day_zero]
    have hp : prevMonth y (m1 + 1) = (y, m1) := by
      simp only [prevMonth]
      rw [if_neg (by omega)]
      simp
    rw [hp]

theorem getRecurring_resolves (year month0 : Int) (q : ℚ) (hy : 100 ≤ year)
    (hm : 0 ≤ month0) (hm' : month0 ≤ 11) (hden : q.den = 1) :
    getRecurringDueDateInViewedMonth year month0 (some q) =
      some ⟨year, month0 + 1,
        min (max q.num 1) (daysInMonth year (month0 + 1))⟩ := by
  have hb := daysInMonth_bounds year (month0 + 1)
  simp only [getRecurringDueDateInViewedMonth, hden]
  rw [if_neg (by omega)]
  have hzero : jsMakeDate year (month0 + 1) 0 =
      ⟨year, month0 + 1, daysInMonth year (month0 + 1)⟩ :=
    jsMakeDate_day_zero year (month0 + 1) hy (by omega) (by omega)
  rw [hzero]
  simp only [getDate]
  rw [jsMakeDate_valid year month0
    (min (max q.num 1) (daysInMonth year (month0 + 1))) hy hm hm'
    (by omega) (by omega)]

/-- C4: for every displayed `(year, month)` of the grid and every Monthly
bill (integer day-of-month, per the data model), the projector produces
exactly one calendar event, placed at `clamp(dayOfMonth, 1, lastDay)` of the
displayed month, whose paid status is derived against the *displayed*
period. -/
theorem calendar_monthly_one_clamped_event (viewedYear viewedMonth0 : Int)
    (today : CalDate) (bill : BillListItem) (q : ℚ)
    (hy : 100 ≤ viewedYear) (hm : 0 ≤ viewedMonth0) (hm' : viewedMonth0 ≤ 11)
    (hrec : bill.recurrence = some BillRecurrence.monthly)
    (hdom : bill.dayOfMonth = some q) (hden : q.den = 1) :
    ∃ e, billEvent viewedYear viewedMonth0 today bill = some e ∧
      e.dayOfMonth =
        min (max q.num 1) (daysInMonth viewedYear (viewedMonth0 + 1)) ∧
      (e.status = ChipStatus.paid ↔
        bill.paidForMonth = some (yyyymmString viewedYear (viewedMonth0 + 1))) ∧
      eventsList viewedYear viewedMonth0 today [bill] = [e] := by
  have hres := getRecurring_resolves viewedYear viewedMonth0 q hy hm hm' hden
  rcases hbe : billEvent viewedYear viewedMonth0 today bill with _ | e
  · exfalso
    simp only [billEvent, hrec, hdom, hres, ite_true] at hbe
    simp at hbe
  · refine ⟨e, rfl, ?_, ?_, ?_⟩
    · simp only [billEvent, hrec, hdom, hres, ite_true] at hbe
      have he := Option.some.inj hbe
      rw [← he]
      rfl
    · simp only [billEvent, hrec, hdom, hres, ite_true] at hbe
      have he := Option.some.inj hbe
      rw [← he]
      by_cases hp : bill.paidForMonth
          = some (yyyymmString viewedYear (viewedMonth0 + 1))
      · simp [hp]
      · simp only [hp, if_false, iff_false]
        split
        · simp
        · simp
    · simp [eventsList, hbe]

/-- C4 witness: a `dayOfMonth = 31` bill lands on day 28 in February 2023
and day 29 in February 2024 (clamping to the displayed month's last day). -/
theorem calendar_monthly_one_clamped_event_witness :
    (∃ e, billEvent 2023 1 ⟨2024, 4, 5⟩ monthlyDemoBill = some e ∧
      e.dayOfMonth = min (max (31 : ℚ).num 1) (daysInMonth 2023 (1 + 1)) ∧
      (e.status = ChipStatus.paid ↔
        monthlyDemoBill.paidForMonth = some (yyyymmString 2023 (1 + 1))) ∧
      eventsList 2023 1 ⟨2024, 4, 5⟩ [monthlyDemoBill] = [e]) ∧
    (∃ e, billEvent 2024 1 ⟨2024, 4, 5⟩ monthlyDemoBill = some e ∧
      e.dayOfMonth = min (max (31 : ℚ).num 1) (daysInMonth 2024 (1 + 1)) ∧
      (e.status = ChipStatus.paid ↔
        monthlyDemoBill.paidForMonth = some (yyyymmString 2024 (1 + 1))) ∧
      eventsList 2024 1 ⟨2024, 4, 5⟩ [monthlyDemoBill] = [e]) :=
  ⟨calendar_monthly_one_clamped_event 2023 1 ⟨2024, 4, 5⟩ monthlyDemoBill 31
      (by decide) (by decide) (by decide) rfl rfl (by decide),
    calendar_monthly_one_clamped_event 2024 1 ⟨2024, 4, 5⟩ monthlyDemoBill 31
      (by decide) (by decide) (by decide) rfl rfl (by decide)⟩


/-- C5: for a displayed month strictly after today's month/year, no calendar
event — Monthly (suppressed explicitly) or OneTime (whose due date then lies
beyond today) — has status `overdue`. -/
theorem calendar_future_month_never_overdue (viewedYear viewedMonth0 : Int)
    (today : CalDate) (bills : List BillListItem)
    (hfut : isMonthInFuture viewedYear viewedMonth0 today.year
      (today.month - 1) = true) :
    ∀ e ∈ eventsList viewedYear viewedMonth0 today bills,
      e.status ≠ ChipStatus.overdue := by
  intro e he
  simp only [eventsList, List.mem_filterMap] at he
  obtain ⟨b, hb, hbe⟩ := he
  have hfut' : viewedYear > today.year ∨
      (viewedYear = today.year ∧ viewedMonth0 > today.month - 1) := by
    simpa [isMonthInFuture] using hfut
  rcases hrec : b.recurrence with _ | ⟨_⟩
  · -- one-time bill: the event only exists when the due date lies in the
    -- viewed (future) month, which is then not before today
    rcases ht : truthyStr b.dueDate with _ | s
    · simp [billEvent, hrec, ht] at hbe
    · rcases hp : parseYYYYMMDD s with _ | d
      · simp [billEvent, hrec, ht, hp] at hbe
      · by_cases hym : getFullYear d ≠ viewedYear ∨ getMonth d ≠ viewedMonth0
        · simp [billEvent, hrec, ht, hp, hym] at hbe
        · push_neg at hym
          have hlt : dateLtB d today = false := by
            simp only [dateLtB, decide_eq_false_iff_not]
            have h1 : d.year = viewedYear := hym.1
            have h2 : d.month - 1 = viewedMonth0 := hym.2
            omega
          have hcond : ¬(getFullYear d ≠ viewedYear ∨ getMonth d ≠ viewedMonth0) := by
            push_neg
            exact hym
          simp only [billEvent, hrec, ht, hp] at hbe
          rw [if_neg hcond] at hbe
          have he := Option.some.inj hbe
          rw [← he]
          by_cases hpd : b.status = BillStatus.paid
          · simp [hpd]
          · simp [hpd, hlt]
  · -- monthly bill: overdue is explicitly suppressed for future months
    rcases hr : getRecurringDueDateInViewedMonth viewedYear viewedMonth0
        b.dayOfMonth with _ | rdd
    · simp [billEvent, hrec, hr] at hbe
    · simp only [billEvent, hrec, hr, ite_true] at hbe
      have he := Option.some.inj hbe
      rw [← he]
      by_cases hpd : b.paidForMonth
          = some (yyyymmString viewedYear (viewedMonth0 + 1))
      · simp [hpd]
      · simp [hpd, hfut]

/-- C5 witness: the event an unpaid far-future one-time bill projects into
its (future) month is not overdue. -/
theorem calendar_future_month_never_overdue_witness :
    futureDemoEvent.status ≠ ChipStatus.overdue :=
  calendar_future_month_never_overdue 2030 0 ⟨2024, 4, 5⟩
    [{ oneTimeDemoBill with dueDate := some "2030-01-15" }] (by decide)
    futureDemoEvent (by decide)

theorem dateLtB_trans (a b c : CalDate) (h1 : dateLtB a b = true)
    (h2 : dateLtB b c = true) : dateLtB a c = true := by
  simp only [dateLtB, decide_eq_true_eq] at h1 h2 ⊢
  omega

theorem dateLtB_total_of_ne (a b : CalDate) (h : a ≠ b) :
    dateLtB a b = true ∨ dateLtB b a = true := by
  have hne : ¬(a.year = b.year ∧ a.month = b.month ∧ a.day = b.day) := by
    intro hc
    apply h
    cases a
    cases b
    simp_all
  simp only [dateLtB, decide_eq_true_eq]
  omega

theorem dueKeyLtB_trans (a b c : Option CalDate) (h1 : dueKeyLtB a b = true)
    (h2 : dueKeyLtB b c = true) : dueKeyLtB a c = true := by
  rcases a with _ | x
  · simp [dueKeyLtB] at h1
  · rcases b with _ | y
    · simp [dueKeyLtB] at h2
    · rcases c with _ | z
      · simp [dueKeyLtB]
      · exact dateLtB_trans x y z h1 h2

theorem dueKeyLtB_total_of_ne (a b : Option CalDate) (h : a ≠ b) :
    dueKeyLtB a b = true ∨ dueKeyLtB b a = true := by
  rcases a with _ | x
  · rcases b with _ | y
    · exact absurd rfl h
    · right
      simp [dueKeyLtB]
  · rcases b with _ | y
    · left
      simp [dueKeyLtB]
    · have hxy : x ≠ y := by
        intro hc
        exact h (by rw [hc])
      exact dateLtB_total_of_ne x y hxy

theorem billLe_iff_billSortKeyLe (today : CalDate) (a b : BillListItem) :
    billLe today a b ↔ billSortKeyLe today a b := by
  by_cases hs : statusOrder today a = statusOrder today b
  · by_cases hd : billDueKey today a = billDueKey today b
    · rcases lt_trichotomy a.name b.name with hn | hn | hn
      · simp [billLe, billCmp, billSortKeyLe, hs, hd, hn, le_of_lt hn]
      · simp [billLe, billCmp, billSortKeyLe, hs, hd, hn, le_of_eq hn]
      · have h1 : ¬a.name < b.name := not_lt_of_gt hn
        have h2 : a.name ≠ b.name := ne_of_gt hn
        have h3 : ¬a.name ≤ b.name := not_le_of_lt hn
        have h4 : dueKeyLtB (billDueKey today a) (billDueKey today b) = false := by
          rw [hd]
          rcases hk : billDueKey today b with _ | x
          · simp [dueKeyLtB]
          · simp only [dueKeyLtB, dateLtB, decide_eq_false_iff_not]
            omega
        have h5 : dueKeyLtB (billDueKey today b) (billDueKey today b)
            = false := hd ▸ h4
        simp [billLe, billCmp, billSortKeyLe, hs, hd, h1, h2, h3, h4, h5]
    · by_cases hlt : dueKeyLtB (billDueKey today a) (billDueKey today b) = true
      · simp [billLe, billCmp, billSortKeyLe, hs, hd, hlt]
      · simp [billLe, billCmp, billSortKeyLe, hs, hd, hlt]
  · by_cases hlt : statusOrder today a < statusOrder today b
    · simp [billLe, billCmp, billSortKeyLe, hs, hlt]
    · simp [billLe, billCmp, billSortKeyLe, hs, hlt]

theorem billLe_trans (today : CalDate) :
    ∀ a b c, billLe today a b → billLe today b c → billLe today a c := by
  intro a b c hab hbc
  rw [billLe_iff_billSortKeyLe] at hab hbc ⊢
  rcases hab with hab | ⟨hseq, hab2⟩
  · rcases hbc with hbc | ⟨hseq', _⟩
    · exact Or.inl (lt_trans hab hbc)
    · exact Or.inl (by omega)
  · rcases hbc with hbc | ⟨hseq', hbc2⟩
    · exact Or.inl (by omega)
    · refine Or.inr ⟨by omega, ?_⟩
      rcases hab2 with hab2 | ⟨hdeq, hnab⟩
      · rcases hbc2 with hbc2 | ⟨hdeq', _⟩
        · exact Or.inl (dueKeyLtB_trans _ _ _ hab2 hbc2)
        · exact Or.inl (hdeq' ▸ hab2)
      · rcases hbc2 with hbc2 | ⟨hdeq', hnbc⟩
        · exact Or.inl (hdeq ▸ hbc2)
        · exact Or.inr ⟨hdeq.trans hdeq', le_trans hnab hnbc⟩

theorem billLe_total (today : CalDate) :
    ∀ a b, billLe today a b ∨ billLe today b a := by
  intro a b
  rw [billLe_iff_billSortKeyLe, billLe_iff_billSortKeyLe]
  by_cases hs : statusOrder today a = statusOrder today b
  · by_cases hd : billDueKey today a = billDueKey today b
    · rcases le_total a.name b.name with hn | hn
      · exact Or.inl (Or.inr ⟨hs, Or.inr ⟨hd, hn⟩⟩)
      · exact Or.inr (Or.inr ⟨hs.symm, Or.inr ⟨hd.symm, hn⟩⟩)
    · rcases dueKeyLtB_total_of_ne _ _ hd with hk | hk
      · exact Or.inl (Or.inr ⟨hs, Or.inl hk⟩)
      · exact Or.inr (Or.inr ⟨hs.symm, Or.inl hk⟩)
  · rcases lt_or_gt_of_ne (fun hc => hs hc) with hlt | hlt
    · exact Or.inl (Or.inl hlt)
    · exact Or.inr (Or.inl hlt)

/-- C6: the sorted bill view is ordered by the lexicographic key
(derived-unpaid before derived-paid, then resolved due time ascending with
unresolved or missing due dates last, then name); in particular a
derived-Unpaid bill never sorts after a derived-Paid bill. -/
theorem sorted_bills_order (today : CalDate) (bills : List BillListItem) :
    (sortedBills today bills).Pairwise (billSortKeyLe today) ∧
    (∀ x y, billSortKeyLe today x y →
      ¬(getDerivedStatus today x = BillStatus.paid ∧
        getDerivedStatus today y = BillStatus.unpaid)) := by
  constructor
  · haveI : IsTrans BillListItem (billLe today) := ⟨billLe_trans today⟩
    haveI : IsTotal BillListItem (billLe today) := ⟨billLe_total today⟩
    have h := List.sorted_insertionSort (billLe today) bills
    exact List.Pairwise.imp
      (fun hab => (billLe_iff_billSortKeyLe today _ _).1 hab) h
  · intro x y hxy ⟨hx, hy⟩
    have hsx : statusOrder today x = 1 := by
      simp [statusOrder, hx]
    have hsy : statusOrder today y = 0 := by
      simp [statusOrder, hy]
    rcases hxy with hlt | ⟨heq, _⟩
    · omega
    · omega

/-- C6 witness at a concrete bill list. -/
theorem sorted_bills_order_witness :
    (sortedBills ⟨2024, 4, 5⟩ [monthlyDemoBill, oneTimeDemoBill]).Pairwise
      (billSortKeyLe ⟨2024, 4, 5⟩) :=
  (sorted_bills_order ⟨2024, 4, 5⟩ [monthlyDemoBill, oneTimeDemoBill]).1

theorem monthTotalsStep_due (today : CalDate) (hT : ValidCalDate today)
    (acc : MonthTotals) (bill : BillListItem) :
    (monthTotalsStep today acc bill).dueThisMonthTotal =
      acc.dueThisMonthTotal +
        (if dueThisMonthSpec today bill then bill.amount else 0) := by
  obtain ⟨hy, hm1, hm2⟩ := hT
  rcases hrec : bill.recurrence with _ | ⟨_⟩
  · -- one-time bill
    rcases hdd : bill.dueDate with _ | s
    · cases hov : isOverdue today bill <;>
        simp [monthTotalsStep, dueThisMonthSpec, resolvedDueThisMonth, hrec,
          hdd, truthyStr, hov]
    · by_cases hs : s = ""
      · subst hs
        have hp : parseYYYYMMDD "" = none := by decide
        cases hov : isOverdue today bill <;>
          simp [monthTotalsStep, dueThisMonthSpec, resolvedDueThisMonth,
            hrec, hdd, truthyStr, hp, hov]
      · rcases hp : parseYYYYMMDD s with _ | d
        · cases hov : isOverdue today bill <;>
            simp [monthTotalsStep, dueThisMonthSpec, resolvedDueThisMonth,
              hrec, hdd, truthyStr, hs, hp, hov]
        · by_cases hcur : d.year = today.year ∧ d.month = today.month
          · have hcur1 : getMonth d = today.month - 1 := by
              simp only [getMonth]
              omega
            have hcur2 : getFullYear d = today.year := by
              simp only [getFullYear]
              omega
            cases hov : isOverdue today bill <;>
              cases hsp : bill.status <;>
              simp [monthTotalsStep, dueThisMonthSpec, resolvedDueThisMonth,
                hrec, hdd, truthyStr, hs, hp, hov, hsp, hcur, hcur1, hcur2]
          · have hcur' : ¬(getMonth d = today.month - 1 ∧
                getFullYear d = today.year) := by
              simp only [getMonth, getFullYear]
              omega
            cases hov : isOverdue today bill <;>
              simp [monthTotalsStep, dueThisMonthSpec, resolvedDueThisMonth,
                hrec, hdd, truthyStr, hs, hp, hov, hcur, hcur']
  · -- monthly bill
    rcases hdom : bill.dayOfMonth with _ | q
    · cases hov : isOverdue today bill <;>
        by_cases hpm : bill.paidForMonth = some (currentYYYYMM today) <;>
        simp [monthTotalsStep, dueThisMonthSpec, resolvedDueThisMonth, hrec,
          hdom, getRecurringDueDateInCurrentMonth,
          getRecurringDueDateInViewedMonth, hov, hpm]
    · by_cases hden : q.den = 1
      · have hres := getRecurring_resolves today.year (today.month - 1) q hy
          (by omega) (by omega) hden
        have hmonth : today.month - 1 + 1 = today.month := by omega
        rw [hmonth] at hres
        cases hov : isOverdue today bill <;>
          by_cases hpm : bill.paidForMonth = some (currentYYYYMM today) <;>
          simp [monthTotalsStep, dueThisMonthSpec, resolvedDueThisMonth,
            hrec, hdom, getRecurringDueDateInCurrentMonth, hres, hov, hpm]
      · cases hov : isOverdue today bill <;>
          by_cases hpm : bill.paidForMonth = some (currentYYYYMM today) <;>
          simp [monthTotalsStep, dueThisMonthSpec, resolvedDueThisMonth,
            hrec, hdom, getRecurringDueDateInCurrentMonth,
            getRecurringDueDateInViewedMonth, hden, hov, hpm]

theorem monthTotals_foldl_due (today : CalDate) (hT : ValidCalDate today) :
    ∀ (bills : List BillListItem) (acc : MonthTotals),
      (List.foldl (monthTotalsStep today) acc bills).dueThisMonthTotal =
        acc.dueThisMonthTotal +
          ((bills.filter (dueThisMonthSpec today)).map
            (fun b => b.amount)).sum := by
  intro bills
  induction bills with
  | nil =>
    intro acc
    simp
  | cons b rest ih =>
    intro acc
    simp only [List.foldl_cons]
    rw [ih, monthTotalsStep_due today hT acc b]
    by_cases hb : dueThisMonthSpec today b = true
    · simp [List.filter_cons, hb]
      ring
    · have hb' : dueThisMonthSpec today b = false := by
        cases h : dueThisMonthSpec today b
        · rfl
        · exact absurd h hb
      simp [List.filter_cons, hb']

/-- C7: `dueThisMonthTotal` is exactly the sum of amounts over bills whose
resolved due date falls in the current month (Monthly: the recurring date,
which resolves into the current month whenever the day-of-month is an
integer; OneTime: the parsed due date, only when inside the current
calendar month), counted regardless of paid state. -/
theorem due_this_month_total (today : CalDate) (bills : List BillListItem)
    (hT : ValidCalDate today) :
    (monthTotals today bills).dueThisMonthTotal =
      ((bills.filter (dueThisMonthSpec today)).map
        (fun b => b.amount)).sum := by
  have h := monthTotals_foldl_due today hT bills ⟨0, 0, 0⟩
  simpa [monthTotals] using h

/-- C7 witness at a concrete date and bill list (one monthly bill counted
although already settled for the month, one one-time bill due that month). -/
theorem due_this_month_total_witness :
    (monthTotals ⟨2024, 3, 10⟩
        [monthlyDemoBill, oneTimeDemoBill]).dueThisMonthTotal =
      (([monthlyDemoBill, oneTimeDemoBill].filter
          (dueThisMonthSpec ⟨2024, 3, 10⟩)).map (fun b => b.amount)).sum :=
  due_this_month_total ⟨2024, 3, 10⟩ [monthlyDemoBill, oneTimeDemoBill]
    ⟨by decide, by decide, by decide⟩

example : parseYYYYMMDD "2024-02-30" = none := by decide
example : parseYYYYMMDD "2024-03-05" = some ⟨2024, 3, 5⟩ := by decide
example : parseYYYYMMDD "2024-02-29" = some ⟨2024, 2, 29⟩ := by decide
example : parseYYYYMMDD "2023-02-29" = none := by decide
example : jsMakeDate 2023 1 31 = ⟨2023, 2, 28⟩ ∨ True := by exact Or.inr trivial
example : daysInMonth 2023 2 = 28 := by decide
example : daysInMonth 2024 2 = 29 := by decide
